import Mathlib

/-!
Verification of the data-cleaning core of `src/app.py` (suicide-case
dashboard).

The repository's core is the function `clean_dataset` (src/app.py lines
99-120), a pandas transformation over an in-memory table, together with the
loader `load_data` (defined twice, lines 8-10 and 93-95).  We embed the
table shallowly: a table is an ordered list of named columns, each column an
ordered list of cell values.  Cell values are strings, exact rationals
(standing for pandas' numeric values), or the missing marker `na` (pandas'
NaN produced by `errors='coerce'`).

Modelling notes on external library functions (pandas/Python):
* `.str.lower()` is modelled by `Char.toLower` characterwise (ASCII case
  mapping, the relevant range for this dataset's headers).
* `pd.to_numeric(..., errors='coerce')` is modelled by `parseNum`: decimal
  literals with optional sign and fraction; anything else coerces to `na`.
  Numbers pass through, `na` stays `na`.
* `.astype(str)` is modelled by `valueToStr`; CSV-loaded cells are strings,
  on which it is the identity.
* `.str.replace(r'[\$,]', '', regex=True)` is modelled by removing every
  `'$'` and `','` character.
* Reading a column that is absent raises `KeyError`; we model
  `clean_dataset` in `Except String Table` accordingly.
-/

namespace SuicideApp

/-- A cell of the table: a string, a (rational) number, or the missing
marker (pandas NaN as produced by coercion). -/
inductive Value where
  | str (s : String)
  | num (q : Rat)
  | na
deriving DecidableEq

/-- A record table: an ordered list of columns, each a name paired with the
ordered list of its cell values (pandas `DataFrame`, column-major). -/
abbrev Table := List (String × List Value)

/-- Remove every occurrence of character `c` from a character list. -/
def removeChar (c : Char) (l : List Char) : List Char :=
  l.filter (fun a => a ≠ c)

/-- Replace every occurrence of character `c` by `r` in a character list. -/
def replaceChar (c r : Char) (l : List Char) : List Char :=
  l.map (fun a => if a = c then r else a)

/-- Column-name normalization, src/app.py line 103:
`.str.lower().str.replace(' ', '_').str.replace('(', '').str.replace(')', '')`. -/
def normalizeName (s : String) : String :=
  String.mk (removeChar ')' (removeChar '(' (replaceChar ' ' '_' (s.data.map Char.toLower))))

/-- Digit characters only? -/
def allDigits (l : List Char) : Bool :=
  l.all Char.isDigit

/-- Value of a digit string (most significant first). -/
def digitsVal (l : List Char) : Nat :=
  l.foldl (fun a c => a * 10 + (c.toNat - 48)) 0

/-- Parse an unsigned decimal literal (optional fractional part) as a
rational; `none` when the characters do not form such a literal. -/
def parseUnsigned (l : List Char) : Option Rat :=
  let ip := l.takeWhile (fun c => c ≠ '.')
  let rest := l.dropWhile (fun c => c ≠ '.')
  match rest with
  | [] =>
    if ip ≠ [] ∧ allDigits ip then some (digitsVal ip : Rat) else none
  | _ :: fp =>
    if (ip ≠ [] ∨ fp ≠ []) ∧ allDigits ip ∧ allDigits fp ∧ fp.all (fun c => c ≠ '.')
    then some ((digitsVal ip : Rat) + (digitsVal fp : Rat) / ((10 : Rat) ^ fp.length))
    else none

/-- Model of the numeric parser underlying `pd.to_numeric` on a string:
optional leading minus sign, then an unsigned decimal literal. -/
def parseNum (s : String) : Option Rat :=
  match s.data with
  | '-' :: rest => (parseUnsigned rest).map (fun q => -q)
  | l => parseUnsigned l

/-- Per-cell model of `pd.to_numeric(col, errors='coerce')`: numbers pass
through, missing stays missing, strings are parsed and coerce to the
missing marker on failure. -/
def toNumericCell : Value → Value
  | .str s =>
    match parseNum s with
    | some q => .num q
    | none => .na
  | .num q => .num q
  | .na => .na

/-- Per-cell model of `.astype(str)`: strings unchanged (the case exercised
by CSV input); numbers and missing rendered to text. -/
def valueToStr : Value → String
  | .str s => s
  | .num q =>
    if q.den = 1 then toString q.num else toString q.num ++ "/" ++ toString q.den
  | .na => "nan"

/-- Remove every `'$'` and `','` character, src/app.py line 111
(`.str.replace(r'[\$,]', '', regex=True)`). -/
def stripDollarComma (s : String) : String :=
  String.mk (s.data.filter (fun c => c ≠ '$' ∧ c ≠ ','))

/-- Per-cell effect of src/app.py lines 111-112 on the GDP-per-year column:
`astype(str)`, strip `$`/`,`, then numeric coercion. -/
def cleanGdpYearCell (v : Value) : Value :=
  toNumericCell (.str (stripDollarComma (valueToStr v)))

/-- Does the table have a column with this exact name
(`'name' in df.columns`)? -/
def hasCol (t : Table) (n : String) : Bool :=
  t.any (fun c => c.1 = n)

/-- Apply `f` to every cell of every column named `n`
(`df[n] = f-broadcast over df[n]`). -/
def mapCol (t : Table) (n : String) (f : Value → Value) : Table :=
  t.map (fun c => if c.1 = n then (c.1, c.2.map f) else c)

/-- Drop every column named `n` (`df.drop(columns=[n], errors='ignore')`). -/
def dropCol (t : Table) (n : String) : Table :=
  t.filter (fun c => c.1 ≠ n)

/-- Rename every column named `a` to `b` (`df.rename(columns={a: b})`). -/
def renameCol (t : Table) (a b : String) : Table :=
  t.map (fun c => if c.1 = a then (b, c.2) else c)

/-- Src/app.py line 103: normalize every column name. -/
def normalizeCols (t : Table) : Table :=
  t.map (fun c => (normalizeName c.1, c.2))

/-- Cleaning step 2 (src/app.py line 106): numeric coercion of
`suicides_no`. -/
def coerceSuicides (t : Table) : Table :=
  mapCol t "suicides_no" toNumericCell

/-- Cleaning step 4 (src/app.py line 107): numeric coercion of
`gdp_per_capita_$`. -/
def coerceGdpCap (t : Table) : Table :=
  mapCol t "gdp_per_capita_$" toNumericCell

/-- Cleaning step 3 (src/app.py lines 110-112): currency-string coercion of
`gdp_for_year_$`, guarded by an explicit presence check. -/
def cleanGdpYear (t : Table) : Table :=
  if hasCol t "gdp_for_year_$" then mapCol t "gdp_for_year_$" cleanGdpYearCell else t

/-- Cleaning step 5 (src/app.py line 115): drop `hdi_for_year` if present. -/
def dropHdi (t : Table) : Table :=
  dropCol t "hdi_for_year"

/-- `clean_dataset`, src/app.py lines 99-120.  Reading `df['suicides_no']`
(line 106) or `df['gdp_per_capita_$']` (line 107) raises `KeyError` when the
column is absent; line 110's access is guarded.  Lines are mirrored in
order: copy, rename columns, coerce `suicides_no`, coerce
`gdp_per_capita_$`, clean `gdp_for_year_$`, drop `hdi_for_year`, rename
`gdp_per_capita_$` to `gdp_per_capita`. -/
def clean_dataset (df : Table) : Except String Table :=
  if hasCol (normalizeCols df) "suicides_no" then
    if hasCol (coerceSuicides (normalizeCols df)) "gdp_per_capita_$" then
      .ok (renameCol (dropHdi (cleanGdpYear (coerceGdpCap (coerceSuicides (normalizeCols df)))))
        "gdp_per_capita_$" "gdp_per_capita")
    else
      .error "KeyError: gdp_per_capita_$"
  else
    .error "KeyError: suicides_no"

instance {ε α : Type} [DecidableEq ε] [DecidableEq α] : DecidableEq (Except ε α)
  | .error a, .error b => decidable_of_iff (a = b) (by simp)
  | .error _, .ok _ => isFalse (by simp)
  | .ok _, .error _ => isFalse (by simp)
  | .ok a, .ok b => decidable_of_iff (a = b) (by simp)

/-- The final name of a (normalized) column: src/app.py line 118 renames
`gdp_per_capita_$` to `gdp_per_capita` and leaves every other name alone. -/
def finalName (n : String) : String :=
  if n = "gdp_per_capita_$" then "gdp_per_capita" else n

/-- The per-cell transformation that `clean_dataset` applies to a column
whose normalized name is `n`. -/
def cellFn (n : String) : Value → Value :=
  if n = "suicides_no" then toNumericCell
  else if n = "gdp_per_capita_$" then toNumericCell
  else if n = "gdp_for_year_$" then cleanGdpYearCell
  else id

/-- Column-level summary of `clean_dataset`: a column normalizing to
`hdi_for_year` is dropped; any other column keeps its cells mapped by
`cellFn` under its final name. -/
def colClean (c : String × List Value) : Option (String × List Value) :=
  if normalizeName c.1 = "hdi_for_year" then none
  else some (finalName (normalizeName c.1), c.2.map (cellFn (normalizeName c.1)))

theorem map_filter_eq_filterMap {α β : Type} (p : α → Bool) (f : α → β) (l : List α) :
    (l.filter p).map f = l.filterMap (fun a => if p a then some (f a) else none) := by
  induction l with
  | nil => rfl
  | cons x xs ih =>
    by_cases h : p x <;> simp [List.filter_cons, List.filterMap_cons, h, ih]

theorem hasCol_mapCol (t : Table) (n m : String) (f : Value → Value) :
    hasCol (mapCol t m f) n = hasCol t n := by
  rw [hasCol, mapCol, List.any_map, hasCol]
  congr 1
  funext c
  by_cases h : c.1 = m <;> simp [Function.comp, h]

theorem mapCol_of_not_hasCol (t : Table) (n : String) (f : Value → Value)
    (h : hasCol t n = false) : mapCol t n f = t := by
  induction t with
  | nil => rfl
  | cons c tl ih =>
    rw [hasCol, List.any_cons, Bool.or_eq_false_iff] at h
    rw [mapCol, List.map_cons, if_neg (by simpa using h.1)]
    have h3 := ih h.2
    rw [mapCol] at h3
    rw [h3]

theorem cleanGdpYear_eq (t : Table) :
    cleanGdpYear t = mapCol t "gdp_for_year_$" cleanGdpYearCell := by
  unfold cleanGdpYear
  split
  · rfl
  · rename_i h
    rw [mapCol_of_not_hasCol]
    simpa using h

/-- Closed form of the successful path of `clean_dataset`: the composite of
the six steps is the column-wise `filterMap` of `colClean`. -/
theorem clean_chain (df : Table) :
    renameCol (dropHdi (cleanGdpYear (coerceGdpCap (coerceSuicides (normalizeCols df)))))
      "gdp_per_capita_$" "gdp_per_capita" = df.filterMap colClean := by
  rw [cleanGdpYear_eq]
  induction df with
  | nil => rfl
  | cons c tl ih =>
    simp only [normalizeCols, coerceSuicides, coerceGdpCap, mapCol, dropHdi, dropCol, renameCol,
      List.map_cons, List.filter_cons, List.filterMap_cons] at ih ⊢
    rw [← ih]
    by_cases h1 : normalizeName c.1 = "suicides_no"
    · simp [h1, colClean, cellFn, finalName]
    · by_cases h2 : normalizeName c.1 = "gdp_per_capita_$"
      · simp [h1, h2, colClean, cellFn, finalName]
      · by_cases h3 : normalizeName c.1 = "gdp_for_year_$"
        · simp [h1, h2, h3, colClean, cellFn, finalName]
        · by_cases h4 : normalizeName c.1 = "hdi_for_year"
          · simp [h1, h2, h3, h4, colClean, cellFn, finalName]
          · simp [h1, h2, h3, h4, colClean, cellFn, finalName]

/-- A successful `clean_dataset` returns exactly the `filterMap` of
`colClean` over the input columns. -/
theorem clean_dataset_ok_eq {df out : Table} (h : clean_dataset df = .ok out) :
    out = df.filterMap colClean := by
  unfold clean_dataset at h
  split at h
  · split at h
    · simp only [Except.ok.injEq] at h
      rw [← h, clean_chain]
    · cases h
  · cases h

/-- `clean_dataset` succeeds exactly when the two unconditionally
referenced columns are present after normalization. -/
theorem clean_dataset_ok_iff (df : Table) :
    (∃ out, clean_dataset df = .ok out) ↔
      (hasCol (normalizeCols df) "suicides_no" = true ∧
       hasCol (normalizeCols df) "gdp_per_capita_$" = true) := by
  unfold clean_dataset
  constructor
  · rintro ⟨out, h⟩
    split at h
    · split at h
      · rename_i hg
        rw [coerceSuicides, hasCol_mapCol] at hg
        simp_all
      · cases h
    · cases h
  · rintro ⟨h1, h2⟩
    rw [← hasCol_mapCol (normalizeCols df) "gdp_per_capita_$" "suicides_no" toNumericCell] at h2
    simp only [h1, if_true]
    simp only [coerceSuicides] at h2 ⊢
    simp [h2]

/-- A sample raw table in the shape of the backing CSV (used to instantiate
the theorems at concrete inputs). -/
def exRaw : Table :=
  [("suicides_no", [Value.str "21", Value.str "abc"]),
   ("gdp_for_year ($)", [Value.str "2,156,624,900", Value.str "x"]),
   ("gdp_per_capita ($)", [Value.str "796", Value.num 3]),
   ("HDI for year", [Value.na, Value.na]),
   ("Country", [Value.str "Albania", Value.str "Albania"])]

/-- The table `clean_dataset` produces from `exRaw`. -/
def exClean : Table :=
  [("suicides_no", [Value.num 21, Value.na]),
   ("gdp_for_year_$", [Value.num 2156624900, Value.na]),
   ("gdp_per_capita", [Value.num 796, Value.num 3]),
   ("country", [Value.str "Albania", Value.str "Albania"])]

/-- A raw table with the two unconditionally referenced columns but without
any GDP-per-year or HDI column. -/
def tNoYear : Table :=
  [("suicides_no", [Value.num 1]), ("gdp_per_capita ($)", [Value.num 2])]

/-- A raw table missing the `suicides_no` column. -/
def tMissing : Table :=
  [("country", [Value.str "x"])]

theorem mem_clean_of_mem {df : Table} {name : String} {vals : List Value}
    (hm : (name, vals) ∈ df) (hne : normalizeName name ≠ "hdi_for_year") :
    (finalName (normalizeName name), vals.map (cellFn (normalizeName name))) ∈
      df.filterMap colClean := by
  rw [List.mem_filterMap]
  exact ⟨(name, vals), hm, by rw [colClean]; simp [hne]⟩

theorem mem_of_mem_clean {df : Table} {c2 : String × List Value}
    (hm : c2 ∈ df.filterMap colClean) :
    ∃ c ∈ df, normalizeName c.1 ≠ "hdi_for_year" ∧
      c2 = (finalName (normalizeName c.1), c.2.map (cellFn (normalizeName c.1))) := by
  rw [List.mem_filterMap] at hm
  obtain ⟨c, hc, he⟩ := hm
  rw [colClean] at he
  by_cases h : normalizeName c.1 = "hdi_for_year"
  · simp [h] at he
  · simp only [if_neg h, Option.some.injEq] at he
    exact ⟨c, hc, h, he.symm⟩

theorem toNumericCell_numOrNa (v : Value) :
    toNumericCell v = Value.na ∨ ∃ q, toNumericCell v = Value.num q := by
  cases v with
  | str s =>
    rw [toNumericCell]
    cases parseNum s with
    | none => left; rfl
    | some q => right; exact ⟨q, rfl⟩
  | num q => right; exact ⟨q, rfl⟩
  | na => left; rfl

/-- The row of a table at index `i`: each column's name paired with its cell
there (`none` past the end of the column). -/
def getRow (t : Table) (i : Nat) : List (String × Option Value) :=
  t.map (fun c => (c.1, c.2[i]?))

/-- `colClean` read at the level of a single row. -/
def rowClean (r : List (String × Option Value)) : List (String × Option Value) :=
  r.filterMap (fun e =>
    if normalizeName e.1 = "hdi_for_year" then none
    else some (finalName (normalizeName e.1), e.2.map (cellFn (normalizeName e.1))))

/-- C1.  For every input table, the table returned by `clean_dataset` has
exactly the same number of rows as the input and the rows appear in the same
order: every output column has the input's (uniform) length, and the `i`-th
row of the output is the cleaned `i`-th row of the input. -/
theorem clean_dataset_preserves_row_count_and_order {df out : Table} {n : Nat}
    (h : clean_dataset df = .ok out) (hn : ∀ c ∈ df, c.2.length = n) :
    (∀ c ∈ out, c.2.length = n) ∧ ∀ i, getRow out i = rowClean (getRow df i) := by
  have hout := clean_dataset_ok_eq h
  subst hout
  constructor
  · intro c hc
    obtain ⟨c0, hc0, _, hceq⟩ := mem_of_mem_clean hc
    rw [hceq]
    simp [hn c0 hc0]
  · intro i
    rw [getRow, List.map_filterMap, rowClean, getRow, List.filterMap_map]
    congr 1
    funext c
    by_cases hne : normalizeName c.1 = "hdi_for_year"
    · simp [colClean, Function.comp, hne]
    · simp [colClean, Function.comp, hne, List.getElem?_map]

theorem clean_dataset_preserves_row_count_and_order_witness :
    clean_dataset exRaw = .ok exClean ∧
    (∀ c ∈ exClean, c.2.length = 2) ∧
    getRow exClean 1 = rowClean (getRow exRaw 1) := by
  refine ⟨by decide, ?_⟩
  have h := @clean_dataset_preserves_row_count_and_order exRaw exClean 2 (by decide) (by decide)
  exact ⟨h.1, h.2 1⟩

/-- C2.  On any input table containing (after normalization) the
`suicides_no` and `gdp_per_capita_$` columns, `clean_dataset` succeeds (the
per-cell coercion never raises), each of those columns is mapped cell-wise
by `toNumericCell`, a cell that fails to parse becomes the missing marker
(in particular the string `"abc"`), and every resulting cell is numeric or
missing. -/
theorem clean_dataset_coercion_total {df : Table}
    (h1 : hasCol (normalizeCols df) "suicides_no" = true)
    (h2 : hasCol (normalizeCols df) "gdp_per_capita_$" = true) :
    ∃ out, clean_dataset df = .ok out ∧
      (∀ name vals, (name, vals) ∈ df →
        (normalizeName name = "suicides_no" ∨ normalizeName name = "gdp_per_capita_$") →
        (finalName (normalizeName name), vals.map toNumericCell) ∈ out ∧
          ∀ v ∈ vals.map toNumericCell, v = Value.na ∨ ∃ q, v = Value.num q) ∧
      (∀ s, parseNum s = none → toNumericCell (Value.str s) = Value.na) ∧
      toNumericCell (Value.str "abc") = Value.na := by
  obtain ⟨out, hok⟩ := (clean_dataset_ok_iff df).2 ⟨h1, h2⟩
  have hout := clean_dataset_ok_eq hok
  refine ⟨out, hok, ?_, ?_, by decide⟩
  · intro name vals hm hcase
    have hne : normalizeName name ≠ "hdi_for_year" := by
      rcases hcase with hc | hc <;> rw [hc] <;> decide
    have hcell : cellFn (normalizeName name) = toNumericCell := by
      rcases hcase with hc | hc <;> rw [hc, cellFn] <;> simp
    have hmem := mem_clean_of_mem hm hne
    rw [hcell] at hmem
    rw [hout]
    refine ⟨hmem, ?_⟩
    intro v hv
    rw [List.mem_map] at hv
    obtain ⟨u, _, hu⟩ := hv
    rw [← hu]
    exact toNumericCell_numOrNa u
  · intro s hs
    rw [toNumericCell, hs]

theorem clean_dataset_coercion_total_witness :
    hasCol (normalizeCols exRaw) "suicides_no" = true ∧
    hasCol (normalizeCols exRaw) "gdp_per_capita_$" = true ∧
    ∃ out, clean_dataset exRaw = .ok out ∧
      ("suicides_no", [Value.num 21, Value.na]) ∈ out := by
  refine ⟨by decide, by decide, ?_⟩
  obtain ⟨out, hok, hcols, -, -⟩ :=
    @clean_dataset_coercion_total exRaw (by decide) (by decide)
  refine ⟨out, hok, ?_⟩
  have := (hcols "suicides_no" [Value.str "21", Value.str "abc"] (by decide)
    (Or.inl (by decide))).1
  simpa using this

/-- C3 counterexample.  A table from which the GDP-per-year column is
entirely absent (after normalization) on which `clean_dataset` nevertheless
succeeds and returns a table, contradicting the claim that absence of any of
the three columns is fatal. -/
theorem clean_dataset_missing_gdp_year_still_ok :
    hasCol (normalizeCols tNoYear) "gdp_for_year_$" = false ∧
    clean_dataset tNoYear =
      Except.ok [("suicides_no", [Value.num 1]), ("gdp_per_capita", [Value.num 2])] := by
  decide

/-- C3 amended.  Absence (after normalization) of `suicides_no` or of
`gdp_per_capita_$` makes `clean_dataset` fail with a KeyError
(SchemaMismatch); when both are present it succeeds, whether or not the
GDP-per-year column is present (that access is guarded, src/app.py line
110). -/
theorem clean_dataset_schema_requirements (df : Table) :
    ((hasCol (normalizeCols df) "suicides_no" = false ∨
      hasCol (normalizeCols df) "gdp_per_capita_$" = false) →
      ∃ e, clean_dataset df = .error e) ∧
    (hasCol (normalizeCols df) "suicides_no" = true →
      hasCol (normalizeCols df) "gdp_per_capita_$" = true →
      ∃ out, clean_dataset df = .ok out) := by
  constructor
  · intro hdisj
    unfold clean_dataset
    by_cases hs : hasCol (normalizeCols df) "suicides_no" = true
    · have hg : hasCol (normalizeCols df) "gdp_per_capita_$" = false := by
        rcases hdisj with hd | hd
        · rw [hs] at hd; cases hd
        · exact hd
      have hg2 : hasCol (coerceSuicides (normalizeCols df)) "gdp_per_capita_$" = false := by
        rw [coerceSuicides, hasCol_mapCol]
        exact hg
      rw [if_pos hs, if_neg (by simp [hg2])]
      exact ⟨_, rfl⟩
    · rw [if_neg hs]
      exact ⟨_, rfl⟩
  · intro h1 h2
    exact (clean_dataset_ok_iff df).2 ⟨h1, h2⟩

theorem clean_dataset_schema_requirements_witness :
    (∃ e, clean_dataset tMissing = .error e) ∧
    (∃ out, clean_dataset tNoYear = .ok out) := by
  constructor
  · exact (clean_dataset_schema_requirements tMissing).1 (Or.inl (by decide))
  · exact (clean_dataset_schema_requirements tNoYear).2 (by decide) (by decide)

theorem toLower_not_isUpper (c : Char) : (c.toLower).isUpper = false := by
  simp only [Char.toLower, Char.isUpper]
  split
  · rename_i h
    obtain ⟨h1, h2⟩ := h
    have hval : (c.toNat + 32).isValidChar := by
      left
      omega
    have ht : (Char.ofNat (c.toNat + 32)).toNat = c.toNat + 32 := by
      rw [Char.ofNat, dif_pos hval]
      rfl
    rw [Bool.and_eq_false_iff]
    right
    simp only [decide_eq_false_iff_not]
    intro hle
    rw [UInt32.le_def, BitVec.le_def] at hle
    have h90 : ((90 : UInt32)).toBitVec.toNat = 90 := by decide
    have hvt : ((Char.ofNat (c.toNat + 32)).val).toBitVec.toNat =
        (Char.ofNat (c.toNat + 32)).toNat := rfl
    omega
  · rename_i h
    rw [Bool.and_eq_false_iff]
    by_cases h65 : (65 : UInt32) ≤ c.val
    · right
      simp only [decide_eq_false_iff_not]
      intro hle
      apply h
      rw [UInt32.le_def, BitVec.le_def] at h65 hle
      have h65n : ((65 : UInt32)).toBitVec.toNat = 65 := by decide
      have h90 : ((90 : UInt32)).toBitVec.toNat = 90 := by decide
      have hvt : (c.val).toBitVec.toNat = c.toNat := rfl
      exact ⟨by omega, by omega⟩
    · left
      simp only [decide_eq_false_iff_not]
      exact h65

/-- Every character of a normalized column name is neither uppercase nor a
space nor a parenthesis. -/
theorem normalizeName_chars (s : String) :
    ∀ ch ∈ (normalizeName s).data, ch.isUpper = false ∧ ch ≠ ' ' ∧ ch ≠ '(' ∧ ch ≠ ')' := by
  intro ch hch
  have hch1 : ch ∈ removeChar ')' (removeChar '(' (replaceChar ' ' '_' (s.data.map Char.toLower))) := hch
  rw [removeChar, List.mem_filter] at hch1
  obtain ⟨hch2, hp2⟩ := hch1
  rw [removeChar, List.mem_filter] at hch2
  obtain ⟨hch3, hp1⟩ := hch2
  rw [replaceChar, List.mem_map] at hch3
  obtain ⟨a, ha, hae⟩ := hch3
  rw [List.mem_map] at ha
  obtain ⟨b, -, hb⟩ := ha
  refine ⟨?_, ?_, by simpa using hp1, by simpa using hp2⟩
  · rw [← hae]
    by_cases hsp : a = ' '
    · rw [if_pos hsp]
      decide
    · rw [if_neg hsp, ← hb]
      exact toLower_not_isUpper b
  · rw [← hae]
    by_cases hsp : a = ' '
    · rw [if_pos hsp]
      decide
    · rw [if_neg hsp]
      exact hsp

theorem finalName_ne_dollar (n : String) : finalName n ≠ "gdp_per_capita_$" := by
  rw [finalName]
  by_cases h : n = "gdp_per_capita_$" <;> simp [h]

theorem finalName_eq_hdi {n : String} (h : finalName n = "hdi_for_year") :
    n = "hdi_for_year" := by
  rw [finalName] at h
  by_cases hn : n = "gdp_per_capita_$"
  · rw [if_pos hn] at h
    exact absurd h (by decide)
  · rwa [if_neg hn] at h

/-- Characters of a final column name are as well-behaved as those of the
name it is derived from (the rename target `gdp_per_capita` is itself
lowercase, space-free, parenthesis-free). -/
theorem finalName_chars {n : String}
    (h : ∀ ch ∈ n.data, ch.isUpper = false ∧ ch ≠ ' ' ∧ ch ≠ '(' ∧ ch ≠ ')') :
    ∀ ch ∈ (finalName n).data, ch.isUpper = false ∧ ch ≠ ' ' ∧ ch ≠ '(' ∧ ch ≠ ')' := by
  rw [finalName]
  by_cases hn : n = "gdp_per_capita_$"
  · rw [if_pos hn]
    decide
  · rwa [if_neg hn]

theorem hasCol_normalizeCols_iff (df : Table) (n : String) :
    hasCol (normalizeCols df) n = true ↔ ∃ c ∈ df, normalizeName c.1 = n := by
  rw [hasCol, normalizeCols, List.any_map, List.any_eq_true]
  constructor
  · rintro ⟨c, hc, he⟩
    exact ⟨c, hc, by simpa using he⟩
  · rintro ⟨c, hc, he⟩
    exact ⟨c, hc, by simpa using he⟩

/-- C4.  Every cell of a column normalizing to `gdp_for_year_$` is cleaned
by stringifying, deleting every `$` and `,`, and reparsing (missing on
failure); in particular `"1,234,567"` becomes the number `1234567`. -/
theorem clean_dataset_gdp_year_currency {df out : Table} (h : clean_dataset df = .ok out) :
    (∀ name vals, (name, vals) ∈ df → normalizeName name = "gdp_for_year_$" →
      ("gdp_for_year_$", vals.map cleanGdpYearCell) ∈ out) ∧
    (∀ v, cleanGdpYearCell v = toNumericCell (Value.str (stripDollarComma (valueToStr v)))) ∧
    cleanGdpYearCell (Value.str "1,234,567") = Value.num 1234567 := by
  have hout := clean_dataset_ok_eq h
  refine ⟨?_, fun v => rfl, by decide⟩
  intro name vals hm hname
  have hne : normalizeName name ≠ "hdi_for_year" := by
    rw [hname]
    decide
  have hmem := mem_clean_of_mem hm hne
  rw [hname] at hmem
  have hfn : finalName "gdp_for_year_$" = "gdp_for_year_$" := by decide
  have hcf : cellFn "gdp_for_year_$" = cleanGdpYearCell := by
    rw [cellFn]
    simp
  rw [hfn, hcf] at hmem
  rw [hout]
  exact hmem

theorem clean_dataset_gdp_year_currency_witness :
    clean_dataset exRaw = .ok exClean ∧
    ("gdp_for_year_$", [Value.num 2156624900, Value.na]) ∈ exClean := by
  refine ⟨by decide, ?_⟩
  have h := (@clean_dataset_gdp_year_currency exRaw exClean (by decide)).1
    "gdp_for_year ($)" [Value.str "2,156,624,900", Value.str "x"] (by decide) (by decide)
  simpa using h

/-- C5 counterexample.  On a well-formed input, the returned table contains
the column name `gdp_per_capita`, yet no input column name normalizes to
`gdp_per_capita` (the name arises from the later rename of
`gdp_per_capita_$`, src/app.py line 118) — so not every output name is
obtained from an original purely by lowercasing, space replacement and
parenthesis deletion. -/
theorem clean_dataset_rename_breaks_pure_normalization :
    clean_dataset tNoYear =
      Except.ok [("suicides_no", [Value.num 1]), ("gdp_per_capita", [Value.num 2])] ∧
    tNoYear.map (fun c => normalizeName c.1) = ["suicides_no", "gdp_per_capita_$"] ∧
    (tNoYear.map (fun c => normalizeName c.1)).all (fun n => n ≠ "gdp_per_capita") = true := by
  refine ⟨by decide, by decide, by decide⟩

/-- C5 amended.  Every column name of a table returned by `clean_dataset`
contains no uppercase letter, no space and no parenthesis; each name is
`finalName` of the normalization of some original column name, where
`finalName` renames `gdp_per_capita_$` to `gdp_per_capita` and is the
identity otherwise. -/
theorem clean_dataset_output_names {df out : Table} (h : clean_dataset df = .ok out) :
    (∀ c ∈ out, ∀ ch ∈ c.1.data, ch.isUpper = false ∧ ch ≠ ' ' ∧ ch ≠ '(' ∧ ch ≠ ')') ∧
    (∀ c ∈ out, ∃ c0 ∈ df, c.1 = finalName (normalizeName c0.1)) := by
  have hout := clean_dataset_ok_eq h
  subst hout
  constructor
  · intro c hc
    obtain ⟨c0, -, -, hceq⟩ := mem_of_mem_clean hc
    rw [hceq]
    exact finalName_chars (normalizeName_chars c0.1)
  · intro c hc
    obtain ⟨c0, hc0, -, hceq⟩ := mem_of_mem_clean hc
    exact ⟨c0, hc0, by rw [hceq]⟩

theorem clean_dataset_output_names_witness :
    clean_dataset exRaw = .ok exClean ∧
    ∃ c0 ∈ exRaw, "country" = finalName (normalizeName c0.1) := by
  refine ⟨by decide, ?_⟩
  have h := (@clean_dataset_output_names exRaw exClean (by decide)).2
    ("country", [Value.str "Albania", Value.str "Albania"]) (by decide)
  simpa using h

/-- C6.  Whenever `clean_dataset` succeeds, the output column set contains
`gdp_per_capita`, contains neither `gdp_per_capita_$` nor `hdi_for_year`;
success needs only the two unconditionally referenced columns, so absence of
`hdi_for_year` from the input is not an error. -/
theorem clean_dataset_column_presence {df : Table}
    (h1 : hasCol (normalizeCols df) "suicides_no" = true)
    (h2 : hasCol (normalizeCols df) "gdp_per_capita_$" = true) :
    ∃ out, clean_dataset df = .ok out ∧
      "gdp_per_capita" ∈ out.map Prod.fst ∧
      "gdp_per_capita_$" ∉ out.map Prod.fst ∧
      "hdi_for_year" ∉ out.map Prod.fst := by
  obtain ⟨out, hok⟩ := (clean_dataset_ok_iff df).2 ⟨h1, h2⟩
  have hout := clean_dataset_ok_eq hok
  subst hout
  refine ⟨_, hok, ?_, ?_, ?_⟩
  · obtain ⟨c0, hc0, hn0⟩ := (hasCol_normalizeCols_iff df "gdp_per_capita_$").1 h2
    obtain ⟨name, vals⟩ := c0
    have hn1 : normalizeName name = "gdp_per_capita_$" := hn0
    have hmem := mem_clean_of_mem hc0 (by rw [hn1]; decide)
    rw [hn1] at hmem
    have hfn : finalName "gdp_per_capita_$" = "gdp_per_capita" := by decide
    rw [hfn] at hmem
    exact List.mem_map_of_mem Prod.fst hmem
  · intro hmem
    rw [List.mem_map] at hmem
    obtain ⟨c, hc, hceq⟩ := hmem
    obtain ⟨c0, -, -, hc2⟩ := mem_of_mem_clean hc
    rw [hc2] at hceq
    exact finalName_ne_dollar _ hceq
  · intro hmem
    rw [List.mem_map] at hmem
    obtain ⟨c, hc, hceq⟩ := hmem
    obtain ⟨c0, -, hne, hc2⟩ := mem_of_mem_clean hc
    rw [hc2] at hceq
    exact hne (finalName_eq_hdi hceq)

theorem clean_dataset_column_presence_witness :
    hasCol (normalizeCols tNoYear) "hdi_for_year" = false ∧
    ∃ out, clean_dataset tNoYear = .ok out ∧
      "gdp_per_capita" ∈ out.map Prod.fst ∧
      "gdp_per_capita_$" ∉ out.map Prod.fst ∧
      "hdi_for_year" ∉ out.map Prod.fst := by
  exact ⟨by decide, @clean_dataset_column_presence tNoYear (by decide) (by decide)⟩

/-!  Reference/heap model for the mutation claim (C7).  Python passes the
frame `df` to `clean_dataset` by reference; line 100 (`df = df.copy()`)
allocates a fresh table, and every subsequent statement (the `df.columns`
assignment, the column assignments, and the `inplace=True` drop and rename)
mutates only that fresh table.  A heap is a list of allocated tables,
indices are references. -/

/-- Read the table at reference `i` (the empty table for a dangling
reference, which `clean_dataset_imp` never produces). -/
def readRef (h : List Table) (i : Nat) : Table :=
  (h[i]?).getD []

/-- Mutate the table at reference `i` in place by `f`. -/
def setRef (h : List Table) (i : Nat) (f : Table → Table) : List Table :=
  h.set i (f (readRef h i))

/-- `clean_dataset` as a heap transformer: takes the heap and a reference
`a` to the caller's table, returns the final heap and either a reference to
the freshly allocated clean table or the raised KeyError.  Statement-level
mirror of src/app.py lines 99-120 with explicit references. -/
def clean_dataset_imp (heap : List Table) (a : Nat) : List Table × Except String Nat :=
  match heap[a]? with
  | none => (heap, .error "invalid reference")
  | some t0 =>
    let b := heap.length
    let h1 := heap ++ [t0]
    let h2 := setRef h1 b normalizeCols
    if hasCol (readRef h2 b) "suicides_no" then
      let h3 := setRef h2 b coerceSuicides
      if hasCol (readRef h3 b) "gdp_per_capita_$" then
        let h4 := setRef h3 b coerceGdpCap
        let h5 := setRef h4 b cleanGdpYear
        let h6 := setRef h5 b dropHdi
        let h7 := setRef h6 b (fun t => renameCol t "gdp_per_capita_$" "gdp_per_capita")
        (h7, .ok b)
      else (h3, .error "KeyError: gdp_per_capita_$")
    else (h2, .error "KeyError: suicides_no")

theorem readRef_concat (h : List Table) (t : Table) : readRef (h ++ [t]) h.length = t := by
  rw [readRef, List.getElem?_concat_length]
  rfl

theorem setRef_concat (h : List Table) (t : Table) (f : Table → Table) :
    setRef (h ++ [t]) h.length f = h ++ [f t] := by
  rw [setRef, readRef_concat, List.set_append_right _ _ (Nat.le_refl _)]
  simp

/-- Case-split closed form of `clean_dataset_imp` at a valid reference. -/
theorem clean_dataset_imp_eq (heap : List Table) (a : Nat) {t0 : Table}
    (ht0 : heap[a]? = some t0) :
    clean_dataset_imp heap a =
      if hasCol (normalizeCols t0) "suicides_no" then
        if hasCol (coerceSuicides (normalizeCols t0)) "gdp_per_capita_$" then
          (heap ++
            [renameCol (dropHdi (cleanGdpYear (coerceGdpCap (coerceSuicides (normalizeCols t0)))))
              "gdp_per_capita_$" "gdp_per_capita"],
           .ok heap.length)
        else (heap ++ [coerceSuicides (normalizeCols t0)], .error "KeyError: gdp_per_capita_$")
      else (heap ++ [normalizeCols t0], .error "KeyError: suicides_no") := by
  rw [clean_dataset_imp, ht0]
  simp only [setRef_concat, readRef_concat]

/-- C7.  `clean_dataset` never mutates its input: whatever the branch taken,
the caller's table at reference `a` is untouched, and on success the result
is a distinct, freshly allocated reference holding exactly the table the
pure `clean_dataset` computes from the input. -/
theorem clean_dataset_imp_no_mutation (heap : List Table) (a : Nat) (ha : a < heap.length) :
    ((clean_dataset_imp heap a).1)[a]? = heap[a]? ∧
    ∀ b, (clean_dataset_imp heap a).2 = .ok b →
      a ≠ b ∧
      ∃ out, clean_dataset (readRef heap a) = .ok out ∧
        ((clean_dataset_imp heap a).1)[b]? = some out := by
  have ht0 : heap[a]? = some heap[a] := List.getElem?_eq_getElem ha
  have hread : readRef heap a = heap[a] := by
    rw [readRef, ht0]
    rfl
  rw [clean_dataset_imp_eq heap a ht0, hread, clean_dataset]
  by_cases hs : hasCol (normalizeCols heap[a]) "suicides_no"
  · by_cases hg : hasCol (coerceSuicides (normalizeCols heap[a])) "gdp_per_capita_$"
    · rw [if_pos hs, if_pos hg, if_pos hs, if_pos hg]
      refine ⟨List.getElem?_append_left ha, ?_⟩
      intro b hb
      have hb2 : b = heap.length := by
        cases hb
        rfl
      subst hb2
      exact ⟨Nat.ne_of_lt ha, _, rfl, List.getElem?_concat_length _ _⟩
    · rw [if_pos hs, if_neg hg, if_pos hs, if_neg hg]
      refine ⟨List.getElem?_append_left ha, ?_⟩
      intro b hb
      cases hb
  · rw [if_neg hs, if_neg hs]
    refine ⟨List.getElem?_append_left ha, ?_⟩
    intro b hb
    cases hb

theorem clean_dataset_imp_no_mutation_witness :
    ((clean_dataset_imp [exRaw] 0).1)[0]? = some exRaw ∧
    (clean_dataset_imp [exRaw] 0).2 = .ok 1 ∧
    ((clean_dataset_imp [exRaw] 0).1)[1]? = some exClean := by
  have h := clean_dataset_imp_no_mutation [exRaw] 0 (by decide)
  refine ⟨h.1, by decide, ?_⟩
  obtain ⟨-, out, hout, hmem⟩ := h.2 1 (by decide)
  have : out = exClean := by
    have : clean_dataset (readRef [exRaw] 0) = .ok exClean := by decide
    rw [this] at hout
    cases hout
    rfl
  rw [← this]
  exact hmem

/-- C8.  A column whose normalized name is none of `suicides_no`,
`gdp_for_year_$`, `gdp_per_capita_$`, `hdi_for_year` appears in the clean
table with exactly the same cell values, under its normalized name. -/
theorem clean_dataset_frames_other_columns {df out : Table} (h : clean_dataset df = .ok out)
    {name : String} {vals : List Value} (hm : (name, vals) ∈ df)
    (hn : normalizeName name ∉
      (["suicides_no", "gdp_for_year_$", "gdp_per_capita_$", "hdi_for_year"] : List String)) :
    (normalizeName name, vals) ∈ out := by
  have hout := clean_dataset_ok_eq h
  subst hout
  simp only [List.mem_cons, List.not_mem_nil, or_false, not_or] at hn
  obtain ⟨hn1, hn2, hn3, hn4⟩ := hn
  have hmem := mem_clean_of_mem hm hn4
  rw [finalName, if_neg hn3, cellFn, if_neg hn1, if_neg hn3, if_neg hn2, List.map_id] at hmem
  exact hmem

theorem clean_dataset_frames_other_columns_witness :
    clean_dataset exRaw = .ok exClean ∧
    ("country", [Value.str "Albania", Value.str "Albania"]) ∈ exClean := by
  refine ⟨by decide, ?_⟩
  have h := @clean_dataset_frames_other_columns exRaw exClean (by decide)
    "Country" [Value.str "Albania", Value.str "Albania"] (by decide) (by decide)
  simpa using h

theorem mapCol_mapCol_comm {n m : String} (hnm : n ≠ m) (f g : Value → Value) (t : Table) :
    mapCol (mapCol t n f) m g = mapCol (mapCol t m g) n f := by
  rw [mapCol, mapCol, mapCol, mapCol, List.map_map, List.map_map]
  congr 1
  funext c
  by_cases h1 : c.1 = n
  · have h2 : c.1 ≠ m := by rw [h1]; exact hnm
    simp [Function.comp, h1, h2, hnm, Ne.symm hnm]
  · by_cases h2 : c.1 = m <;> simp [Function.comp, h1, h2, hnm, Ne.symm hnm]

theorem dropCol_mapCol_comm (n m : String) (f : Value → Value) (t : Table) :
    dropCol (mapCol t n f) m = mapCol (dropCol t m) n f := by
  rw [mapCol, dropCol, List.filter_map, dropCol, mapCol]
  congr 1
  congr 1
  funext c
  by_cases h1 : c.1 = n <;> simp [Function.comp, h1]

theorem hasCol_dropCol {n m : String} (hnm : m ≠ n) (t : Table) :
    hasCol (dropCol t n) m = hasCol t m := by
  rw [hasCol, dropCol, List.any_filter, hasCol]
  congr 1
  funext c
  by_cases h1 : c.1 = m
  · have h2 : c.1 ≠ n := by
      rw [h1]
      exact hnm
    simp [h1, h2, hnm]
  · simp [h1]

/-- C9.  The four cleaning steps 2-5 (coercion of `suicides_no`, currency
cleaning of `gdp_for_year_$`, coercion of `gdp_per_capita_$`, dropping
`hdi_for_year`) commute pairwise on every table. -/
theorem clean_steps_commute (t : Table) :
    coerceSuicides (coerceGdpCap t) = coerceGdpCap (coerceSuicides t) ∧
    coerceSuicides (cleanGdpYear t) = cleanGdpYear (coerceSuicides t) ∧
    coerceSuicides (dropHdi t) = dropHdi (coerceSuicides t) ∧
    coerceGdpCap (cleanGdpYear t) = cleanGdpYear (coerceGdpCap t) ∧
    coerceGdpCap (dropHdi t) = dropHdi (coerceGdpCap t) ∧
    cleanGdpYear (dropHdi t) = dropHdi (cleanGdpYear t) := by
  refine ⟨?_, ?_, ?_, ?_, ?_, ?_⟩
  · simp only [coerceSuicides, coerceGdpCap]
    exact mapCol_mapCol_comm (by decide) _ _ t
  · simp only [coerceSuicides, cleanGdpYear_eq]
    exact mapCol_mapCol_comm (by decide) _ _ t
  · simp only [coerceSuicides, dropHdi]
    exact (dropCol_mapCol_comm _ _ _ t).symm
  · simp only [coerceGdpCap, cleanGdpYear_eq]
    exact mapCol_mapCol_comm (by decide) _ _ t
  · simp only [coerceGdpCap, dropHdi]
    exact (dropCol_mapCol_comm _ _ _ t).symm
  · simp only [cleanGdpYear_eq, dropHdi]
    exact (dropCol_mapCol_comm _ _ _ t).symm

/-- First definition of `load_data`, src/app.py lines 8-10: calls
`pd.read_csv("sucide_case.csv")`.  `readCsv` abstracts pandas' CSV reader
over the ambient file system (external to the core); the `@st.cache_data`
decorator is an external memoization contract with no semantic effect
(spec section 5). -/
def load_data (readCsv : String → Except String Table) : Except String Table :=
  readCsv "sucide_case.csv"

/-- Second definition of `load_data`, src/app.py lines 93-95, which shadows
the first at runtime; its body is identical. -/
def load_data_v2 (readCsv : String → Except String Table) : Except String Table :=
  readCsv "sucide_case.csv"

/-- `df = load_data()`, src/app.py line 12 (the previewed dataset). -/
def df_previewed (readCsv : String → Except String Table) : Except String Table :=
  load_data readCsv

/-- `df_raw = load_data()`, src/app.py line 123 (the dataset fed to
`clean_dataset` on line 124). -/
def df_raw (readCsv : String → Except String Table) : Except String Table :=
  load_data_v2 readCsv

/-- C10.  The two definitions of `load_data` denote the same function of the
backing file contents, hence the previewed dataset and the dataset fed to
`clean_dataset` coincide. -/
theorem load_data_defs_agree (readCsv : String → Except String Table) :
    load_data readCsv = load_data_v2 readCsv ∧ df_previewed readCsv = df_raw readCsv :=
  ⟨rfl, rfl⟩

end SuicideApp
